import Mathlib

/-!
# dstat: shard readiness tracking and aggregate statistics

A shallow embedding of `main.go`.  The program opens one gateway session per
shard; every session runs two event handlers (`Ready`, `GuildCreate`) and one
timer goroutine.  All of them mutate the package-level `out : DStatOutput`
through `sync/atomic` operations on `int32` fields.

Conventions of the embedding

* An `int32` value is an `Int`; every arithmetic result stored in an `int32`
  goes through `int32`, the two's-complement wrap-around.
* The package-level variable `out` is passed explicitly.
* The variables captured by the closures of `createSession`
  (`shardGuildCount`, `guildsReceived`) together with the observable effects on
  the session and on the `done` channel form the record `Session`.
* A handler invocation is one transition.  The `Ready` handler is split at its
  `time.Sleep(GUILD_READY_TIMEOUT)`: `onReady` is the part before the sleep,
  `onDeadline` the part after it.
* The counters changed by `atomic.AddInt32` do not depend on how concurrent
  handlers interleave, so one transition per handler loses nothing for them.
  `LargestGuildSize` is different: it is changed by a load followed by a
  guarded store (lines 152-156).  Within a transition the two are taken
  together, which is the handler run with no other handler in between; their
  interleavings are modelled apart, by `SizeUpdate` and `runSizeUpdates`.
-/

namespace DStat

/-! ## Machine integers -/

/-- The Go conversion `int32(x)`: wrap-around into `[-2^31, 2^31)`, that is
`((x + 2^31) mod 2^32) - 2^31`. -/
def int32 (x : Int) : Int := (2147483648 + x) % 4294967296 - 2147483648

/-- Go integer division on `int32` operands: a run-time panic on a zero divisor,
truncation towards zero otherwise. -/
def div32 (a b : Int) : Option Int :=
  if b = 0 then none else some (int32 (Int.tdiv a b))

/-! ## The aggregate (`type DStatOutput struct`) -/

/-- The struct `DStatOutput`; every field is an `int32`. -/
structure DStatOutput where
  Guilds : Int
  UnavailableGuilds : Int
  RecommendedShards : Int
  ReadyShards : Int
  MaxConcurrency : Int
  MemberCount : Int
  LargestGuildSize : Int
  GT100k : Int
  GT10k : Int
  GT1k : Int
  PartnerCount : Int
  VerifiedCount : Int
  VerifiedPartnerCount : Int
deriving DecidableEq, Repr

/-- The zero value of `var out DStatOutput`. -/
def DStatOutput.zero : DStatOutput :=
  ⟨0, 0, 0, 0, 0, 0, 0, 0, 0, 0, 0, 0, 0⟩

/-- The two assignments at the top of `main`:
`out.RecommendedShards = int32(gwInfo.Shards)` and
`out.MaxConcurrency = int32(gwInfo.SessionStartLimit.MaxConcurrency)`. -/
def initialOut (shards maxConcurrency : Int) : DStatOutput :=
  { DStatOutput.zero with
    RecommendedShards := int32 shards
    MaxConcurrency := int32 maxConcurrency }

/-! ## Gateway events -/

/-- The part of `discordgo.Ready` that is read: the slice `r.Guilds`
(guild identifiers). -/
structure Ready where
  Guilds : List String
deriving DecidableEq, Repr

/-- The part of `discordgo.GuildCreate` that is read: `gc.MemberCount`
(a Go `int`) and `gc.Features`. -/
structure GuildCreate where
  MemberCount : Int
  Features : List String
deriving DecidableEq, Repr

/-- The function `strListContains`. -/
def strListContains : List String → String → Bool
  | [], _ => false
  | s :: rest, str => if s = str then true else strListContains rest str

/-! ## One session (`createSession`) -/

/-- State owned by one call of `createSession`: the two captured counters, the
number of `s.Close()` calls and the number of `done <- true` sends executed. -/
structure Session where
  shardGuildCount : Int
  guildsReceived : Int
  closeCalls : Nat
  doneSends : Nat
deriving DecidableEq, Repr

/-- A session right after `createSession` returned. -/
def Session.fresh : Session := ⟨0, 0, 0, 0⟩

/-- The completion side effect `s.Close(); done <- true`. -/
def Session.complete (s : Session) : Session :=
  { s with closeCalls := s.closeCalls + 1, doneSends := s.doneSends + 1 }

/-- A shard is completed once its completion side effect has run. -/
def Session.completed (s : Session) : Bool := decide (0 < s.doneSends)

/-- The `Ready` handler up to the timer goroutine (lines 114-116). -/
def onReady (out : DStatOutput) (s : Session) (r : Ready) : DStatOutput × Session :=
  let n := int32 r.Guilds.length
  ({ out with
      Guilds := int32 (out.Guilds + n)
      ReadyShards := int32 (out.ReadyShards + 1) },
   { s with shardGuildCount := n })

/-- The timer goroutine of the `Ready` handler from line 125 on, for the value
`g` that line 124 loaded from `guildsReceived`. -/
def deadlineCheck (out : DStatOutput) (s : Session) (g : Int) : DStatOutput × Session :=
  if int32 (s.shardGuildCount - g) > 0 then
    ({ out with
        UnavailableGuilds := int32 (out.UnavailableGuilds + int32 (s.shardGuildCount - g)) },
     s.complete)
  else
    (out, s)

/-- The timer goroutine of the `Ready` handler after
`time.Sleep(GUILD_READY_TIMEOUT)` (lines 124-129), run without interruption:
`g := atomic.LoadInt32(&guildsReceived)` and then the check. -/
def onDeadline (out : DStatOutput) (s : Session) : DStatOutput × Session :=
  deadlineCheck out s s.guildsReceived

/-- The statistics part of the `GuildCreate` handler (lines 138-171), for
`members := int32(gc.MemberCount)`.  Each field of `out` is written by at most
one statement of the handler, so the handler's effect is given field by field,
in the order of the source.  The field `LargestGuildSize` is the load of line
152 and the guarded store of lines 154-156 with no other handler running in
between; for handlers that overlap there see `runSizeUpdates`. -/
def guildStats (out : DStatOutput) (gc : GuildCreate) : DStatOutput :=
  let members := int32 gc.MemberCount
  let l := out.LargestGuildSize
  let isPartner := strListContains gc.Features "PARTNERED"
  let isVerified := strListContains gc.Features "VERIFIED"
  { out with
    MemberCount := int32 (out.MemberCount + members)
    GT100k := if members > 100000 then int32 (out.GT100k + 1) else out.GT100k
    GT10k := if members > 10000 then int32 (out.GT10k + 1) else out.GT10k
    GT1k := if members > 1000 then int32 (out.GT1k + 1) else out.GT1k
    LargestGuildSize := if members > l then members else l
    PartnerCount := if isPartner then int32 (out.PartnerCount + 1) else out.PartnerCount
    VerifiedCount := if isVerified then int32 (out.VerifiedCount + 1) else out.VerifiedCount
    VerifiedPartnerCount :=
      if isPartner && isVerified then int32 (out.VerifiedPartnerCount + 1)
      else out.VerifiedPartnerCount }

/-- The `GuildCreate` handler (lines 135-176). -/
def onGuildCreate (out : DStatOutput) (s : Session) (gc : GuildCreate) :
    DStatOutput × Session :=
  let shardGc := int32 (s.guildsReceived + 1)
  let s := { s with guildsReceived := shardGc }
  let out := guildStats out gc
  if shardGc = s.shardGuildCount then (out, s.complete) else (out, s)

/-! ## The fleet: all sessions and the shared aggregate -/

/-- What can happen to one shard. -/
inductive Event where
  | ready (r : Ready)
  | guildCreate (gc : GuildCreate)
  | deadline
deriving DecidableEq, Repr

/-- Dispatch of one event to the code that handles it. -/
def handle (out : DStatOutput) (s : Session) : Event → DStatOutput × Session
  | .ready r => onReady out s r
  | .guildCreate gc => onGuildCreate out s gc
  | .deadline => onDeadline out s

/-- The shared aggregate and the session of every shard index. -/
structure Fleet where
  out : DStatOutput
  sessions : Nat → Session

/-- The fleet before any event: `out` as `main` initialises it, every session fresh. -/
def Fleet.start (shards maxConcurrency : Int) : Fleet :=
  ⟨initialOut shards maxConcurrency, fun _ => Session.fresh⟩

/-- One event delivered to shard `shardId`. -/
def Fleet.step (f : Fleet) (shardId : Nat) (e : Event) : Fleet :=
  let r := handle f.out (f.sessions shardId) e
  ⟨r.1, Function.update f.sessions shardId r.2⟩

/-- A sequence of events, each tagged with the shard that receives it. -/
def Fleet.run (f : Fleet) (tr : List (Nat × Event)) : Fleet :=
  tr.foldl (fun f p => f.step p.1 p.2) f

/-- Events of one shard, run on that shard alone. -/
def runShard (out : DStatOutput) (s : Session) (es : List Event) : DStatOutput × Session :=
  es.foldl (fun p e => handle p.1 p.2 e) (out, s)

/-! ## The launch loop of `main` (lines 73-93) -/

/-- What the launch loop does, in order: `go func(i int) ...` for shard `i`,
or `time.Sleep(time.Second * 5)`. -/
inductive LaunchAction where
  | start (i : Nat)
  | sleep5s
deriving DecidableEq, Repr

/-- The `for i := 0; i < gwInfo.Shards; i++` loop with the loop variable `i`
and the counter `shardsStarted` (both count up from 0).  `none` is the run-time
panic of `%` on a zero `MaxConcurrency`, or exhausted fuel. -/
def launchLoop.go (shards maxConcurrency : Int) :
    Nat → Nat → Nat → Option (List LaunchAction)
  | 0, _, _ => none
  | fuel + 1, i, shardsStarted =>
    if (i : Int) < shards then
      let shardsStarted := shardsStarted + 1
      if maxConcurrency = 0 then none
      else if Int.tmod (shardsStarted : Int) maxConcurrency = 0 ∧ (shardsStarted : Int) ≠ shards then
        (launchLoop.go shards maxConcurrency fuel (i + 1) shardsStarted).map
          (fun rest => LaunchAction.start i :: LaunchAction.sleep5s :: rest)
      else
        (launchLoop.go shards maxConcurrency fuel (i + 1) shardsStarted).map
          (fun rest => LaunchAction.start i :: rest)
    else some []

/-- The launch loop of `main` for `gwInfo.Shards = shards` and
`gwInfo.SessionStartLimit.MaxConcurrency = maxConcurrency`. -/
def launchLoop (shards maxConcurrency : Int) : Option (List LaunchAction) :=
  launchLoop.go shards maxConcurrency (shards.toNat + 1) 0 0

/-- The shard indices started, in order. -/
def startsOf : List LaunchAction → List Nat
  | [] => []
  | .start i :: rest => i :: startsOf rest
  | .sleep5s :: rest => startsOf rest

/-- The number of cool-downs. -/
def sleepsOf : List LaunchAction → Nat
  | [] => 0
  | .start _ :: rest => sleepsOf rest
  | .sleep5s :: rest => sleepsOf rest + 1

/-- The number of starts in each batch, a batch being a maximal run of
starts between cool-downs. -/
def batchSizes : List LaunchAction → List Nat
  | [] => [0]
  | .start _ :: rest =>
    match batchSizes rest with
    | [] => [1]
    | b :: bs => (b + 1) :: bs
  | .sleep5s :: rest => 0 :: batchSizes rest

/-- One start of the launch policy in the words of the specification: shard
`i` is the `(i+1)`-th start, and a cool-down follows the `k`-th start exactly
when `maxConcurrency` divides `k` and `k` is not the fleet size. -/
def policyStep (fleetSize maxConcurrency : Nat) (i : Nat) (rest : List LaunchAction) :
    List LaunchAction :=
  if maxConcurrency ∣ (i + 1) ∧ i + 1 ≠ fleetSize then
    LaunchAction.start i :: LaunchAction.sleep5s :: rest
  else LaunchAction.start i :: rest

/-- The launch policy in the words of the specification: the shards
`0, 1, ..., fleetSize - 1` in index order, each followed by a cool-down as
`policyStep` says. -/
def launchPolicy (fleetSize maxConcurrency : Nat) : List LaunchAction :=
  (List.range fleetSize).foldr (policyStep fleetSize maxConcurrency) []

/-! ## Snapshots (`MarshalJSON`, `FormatToWriter`) -/

/-- The JSON object written by `MarshalJSON`: the fields of `DStatOutput` that
have a JSON name, and `average_member_count`. -/
structure DStatJSON where
  guild_count : Int
  unavailable_guilds : Int
  recommended_shards : Int
  member_count : Int
  largest_guild_size : Int
  gt_100k : Int
  gt_10k : Int
  gt_1k : Int
  partner_count : Int
  verified_count : Int
  verified_partner_count : Int
  average_member_count : Int
deriving DecidableEq, Repr

/-- The method `(*DStatOutput).MarshalJSON`.  `none` is the run-time panic
"integer divide by zero" raised by `ds.MemberCount / ds.Guilds`. -/
def DStatOutput.MarshalJSON (ds : DStatOutput) : Option DStatJSON :=
  match div32 ds.MemberCount ds.Guilds with
  | none => none
  | some avgGuildSize =>
    some
      { guild_count := ds.Guilds
        unavailable_guilds := ds.UnavailableGuilds
        recommended_shards := ds.RecommendedShards
        member_count := ds.MemberCount
        largest_guild_size := ds.LargestGuildSize
        gt_100k := ds.GT100k
        gt_10k := ds.GT10k
        gt_1k := ds.GT1k
        partner_count := ds.PartnerCount
        verified_count := ds.VerifiedCount
        verified_partner_count := ds.VerifiedPartnerCount
        average_member_count := avgGuildSize }

/-- The method `(*DStatOutput).FormatToWriter`: the lines printed, as label and
value.  The body reads the package-level `out`, not its receiver `ds`.
`none` is a run-time panic of the final division. -/
def DStatOutput.FormatToWriter (_ds : DStatOutput) (out : DStatOutput) :
    Option (List (String × Int)) :=
  let guilds := out.Guilds
  let members := out.MemberCount
  let g := if guilds = 0 then 1 else guilds
  match div32 members g with
  | none => none
  | some avg =>
    some
      [("Guilds             =>", guilds),
       ("Unavailable Guilds =>", out.UnavailableGuilds),
       ("Ready Shards       =>", out.ReadyShards),
       ("Recommended Shards =>", out.RecommendedShards),
       ("Member Count       =>", members),
       (">= 100,000         =>", out.GT100k),
       (">= 10,000          =>", out.GT10k),
       (">= 1,000           =>", out.GT1k),
       ("Partnered          =>", out.PartnerCount),
       ("Verified           =>", out.VerifiedCount),
       ("P & V              =>", out.VerifiedPartnerCount),
       ("Largest            =>", out.LargestGuildSize),
       ("Avg Guild Size     =>", avg)]

/-! ## Concurrent updates of `LargestGuildSize` (lines 152-156)

Two `GuildCreate` handlers may run at the same time.  The update of
`out.LargestGuildSize` is two atomic operations, `l := atomic.LoadInt32(..)` and,
when `members > l`, `atomic.StoreInt32(.., members)`; other handlers may run
between them. -/

/-- Where one handler is within lines 152-156: before the load, after the load
(holding the loaded `l`), or past the store. -/
inductive SizePc where
  | atLoad
  | atStore (l : Int)
  | finished
deriving DecidableEq, Repr

/-- One handler updating `out.LargestGuildSize` with its `members`. -/
structure SizeUpdate where
  members : Int
  pc : SizePc
deriving DecidableEq, Repr

/-- The next atomic operation of one handler, on the shared `LargestGuildSize`. -/
def SizeUpdate.step (largest : Int) (u : SizeUpdate) : Int × SizeUpdate :=
  match u.pc with
  | .atLoad => (largest, { u with pc := .atStore largest })
  | .atStore l => (if u.members > l then u.members else largest, { u with pc := .finished })
  | .finished => (largest, u)

/-- A schedule names, step by step, the handler that performs its next atomic
operation. -/
def runSizeUpdates (largest : Int) (us : List SizeUpdate) : List Nat → Int × List SizeUpdate
  | [] => (largest, us)
  | t :: rest =>
    match us[t]? with
    | none => runSizeUpdates largest us rest
    | some u => runSizeUpdates (u.step largest).1 (us.set t (u.step largest).2) rest

/-- The values of `LargestGuildSize` after each step of a schedule. -/
def sizeHistory (largest : Int) (us : List SizeUpdate) : List Nat → List Int
  | [] => []
  | t :: rest =>
    match us[t]? with
    | none => largest :: sizeHistory largest us rest
    | some u =>
      (u.step largest).1 :: sizeHistory (u.step largest).1 (us.set t (u.step largest).2) rest

/-- The handlers of `N` arrivals, none of which has reached line 152 yet. -/
def sizeUpdates (sizes : List Int) : List SizeUpdate :=
  sizes.map (fun m => ⟨int32 m, .atLoad⟩)

/-! ## Vocabulary of the statements -/

/-- The values an `int32` can hold. -/
def IsInt32 (x : Int) : Prop := -2147483648 ≤ x ∧ x < 2147483648

instance (x : Int) : Decidable (IsInt32 x) := by unfold IsInt32; infer_instance

/-- The unit arrival carried by an event, if it is one. -/
def Event.arrival : Event → Option GuildCreate
  | .guildCreate gc => some gc
  | _ => none

/-- The manifest size `len(r.Guilds)` carried by an event, if it is a manifest. -/
def Event.manifest : Event → Option Nat
  | .ready r => some r.Guilds.length
  | _ => none

/-- The unit arrivals of a trace, in order. -/
def arrivalsOf (tr : List (Nat × Event)) : List GuildCreate :=
  tr.filterMap (fun p => p.2.arrival)

/-- The manifests of a trace: shard index and `len(r.Guilds)`. -/
def manifestsOf (tr : List (Nat × Event)) : List (Nat × Nat) :=
  tr.filterMap (fun p => p.2.manifest.map (fun n => (p.1, n)))

/-- The member counts `gc.MemberCount` of the unit arrivals of a trace, in order. -/
def membersOf (tr : List (Nat × Event)) : List Int :=
  (arrivalsOf tr).map (fun gc => gc.MemberCount)

/-- Unit arrivals delivered to a fleet one after another, each tagged with the
shard that receives it. -/
def Fleet.arrive (f : Fleet) (arrivals : List (Nat × GuildCreate)) : Fleet :=
  f.run (arrivals.map (fun a => (a.1, Event.guildCreate a.2)))

/-- The number of arrived units whose member count is strictly greater than
`bound`. -/
def membersAbove (bound : Int) (arrivals : List (Nat × GuildCreate)) : Nat :=
  arrivals.countP (fun a => decide (a.2.MemberCount > bound))

/-- What an event adds to the counter of the threshold `bound`
(`GT1k`, `GT10k`, `GT100k`). -/
def gtWeight (bound : Int) : Event → Int
  | .guildCreate gc => if int32 gc.MemberCount > bound then 1 else 0
  | _ => 0

/-- What an event adds to `Guilds`. -/
def guildsWeight : Event → Int
  | .ready r => r.Guilds.length
  | _ => 0

/-! ## Arithmetic of `int32` -/

theorem int32_of_isInt32 {x : Int} (h : IsInt32 x) : int32 x = x := by
  unfold IsInt32 at h; unfold int32; omega

theorem isInt32_int32 (x : Int) : IsInt32 (int32 x) := by
  unfold IsInt32 int32; omega

theorem int32_add_left (a b : Int) : int32 (int32 a + b) = int32 (a + b) := by
  unfold int32; omega

theorem int32_add_right (a b : Int) : int32 (a + int32 b) = int32 (a + b) := by
  unfold int32; omega

/-! ## Traces -/

theorem run_nil (f : Fleet) : f.run [] = f := rfl

theorem run_cons (f : Fleet) (p : Nat × Event) (tr : List (Nat × Event)) :
    f.run (p :: tr) = (f.step p.1 p.2).run tr := rfl

theorem step_out (f : Fleet) (i : Nat) (e : Event) :
    (f.step i e).out = (handle f.out (f.sessions i) e).1 := rfl

theorem onGuildCreate_out (out : DStatOutput) (s : Session) (gc : GuildCreate) :
    (onGuildCreate out s gc).1 = guildStats out gc := by
  unfold onGuildCreate
  dsimp only
  split_ifs <;> rfl

/-- A field to which every handler adds an amount fixed by the event alone
holds, after a trace, its initial value plus the amounts of the trace. -/
theorem run_counter (field : DStatOutput → Int) (w : Event → Int)
    (hstep : ∀ out s e, IsInt32 (field out) →
      field (handle out s e).1 = int32 (field out + w e))
    (tr : List (Nat × Event)) (f : Fleet) (h : IsInt32 (field f.out)) :
    field (f.run tr).out = int32 (field f.out + (tr.map (fun p => w p.2)).sum) := by
  induction tr generalizing f with
  | nil => simp [run_nil, int32_of_isInt32 h]
  | cons p tr ih =>
    have h1 : field (f.step p.1 p.2).out = int32 (field f.out + w p.2) := by
      rw [step_out]; exact hstep _ _ _ h
    rw [run_cons, ih _ (h1 ▸ isInt32_int32 _), h1, int32_add_left]
    simp [add_assoc]

theorem sum_indicator {α : Type} (p : α → Prop) [DecidablePred p] (l : List α) :
    (l.map (fun a => if p a then (1 : Int) else 0)).sum =
      (l.countP (fun a => decide (p a)) : Int) := by
  induction l with
  | nil => simp
  | cons a l ih =>
    simp only [List.map_cons, List.sum_cons, ih, List.countP_cons]
    by_cases h : p a <;> simp [h]
    omega

theorem gt1k_step (out : DStatOutput) (s : Session) (e : Event) (h : IsInt32 out.GT1k) :
    (handle out s e).1.GT1k = int32 (out.GT1k + gtWeight 1000 e) := by
  cases e with
  | ready r => simp [handle, onReady, gtWeight, int32_of_isInt32 h]
  | guildCreate gc =>
    simp only [handle, onGuildCreate_out, gtWeight, guildStats]
    split_ifs <;> simp [int32_of_isInt32 h]
  | deadline =>
    simp only [handle, onDeadline, deadlineCheck, gtWeight]
    split_ifs <;> simp [int32_of_isInt32 h]

theorem gt10k_step (out : DStatOutput) (s : Session) (e : Event) (h : IsInt32 out.GT10k) :
    (handle out s e).1.GT10k = int32 (out.GT10k + gtWeight 10000 e) := by
  cases e with
  | ready r => simp [handle, onReady, gtWeight, int32_of_isInt32 h]
  | guildCreate gc =>
    simp only [handle, onGuildCreate_out, gtWeight, guildStats]
    split_ifs <;> simp [int32_of_isInt32 h]
  | deadline =>
    simp only [handle, onDeadline, deadlineCheck, gtWeight]
    split_ifs <;> simp [int32_of_isInt32 h]

theorem gt100k_step (out : DStatOutput) (s : Session) (e : Event) (h : IsInt32 out.GT100k) :
    (handle out s e).1.GT100k = int32 (out.GT100k + gtWeight 100000 e) := by
  cases e with
  | ready r => simp [handle, onReady, gtWeight, int32_of_isInt32 h]
  | guildCreate gc =>
    simp only [handle, onGuildCreate_out, gtWeight, guildStats]
    split_ifs <;> simp [int32_of_isInt32 h]
  | deadline =>
    simp only [handle, onDeadline, deadlineCheck, gtWeight]
    split_ifs <;> simp [int32_of_isInt32 h]

theorem guilds_step (out : DStatOutput) (s : Session) (e : Event) (h : IsInt32 out.Guilds) :
    (handle out s e).1.Guilds = int32 (out.Guilds + guildsWeight e) := by
  cases e with
  | ready r => simp [handle, onReady, guildsWeight, int32_add_right]
  | guildCreate gc =>
    simp [handle, onGuildCreate_out, guildsWeight, guildStats, int32_of_isInt32 h]
  | deadline =>
    simp only [handle, onDeadline, deadlineCheck, guildsWeight]
    split_ifs <;> simp [int32_of_isInt32 h]

/-- The threshold weights of a list of arrivals add up to the number of
arrivals above the bound, when the member counts fit an `int32`. -/
theorem gtWeight_sum (bound : Int) (arrivals : List (Nat × GuildCreate))
    (hmc : ∀ a ∈ arrivals, IsInt32 a.2.MemberCount) :
    ((arrivals.map (fun a => (a.1, Event.guildCreate a.2))).map
      (fun p => gtWeight bound p.2)).sum = (membersAbove bound arrivals : Int) := by
  have hmap : (arrivals.map (fun a => (a.1, Event.guildCreate a.2))).map
      (fun p => gtWeight bound p.2) =
      arrivals.map (fun a => if a.2.MemberCount > bound then (1 : Int) else 0) := by
    rw [List.map_map]
    apply List.map_congr_left
    intro a ha
    simp [gtWeight, int32_of_isInt32 (hmc a ha)]
  rw [hmap, sum_indicator]
  rfl

theorem membersAbove_le_length (bound : Int) (arrivals : List (Nat × GuildCreate)) :
    membersAbove bound arrivals ≤ arrivals.length :=
  List.countP_le_length _

theorem membersAbove_anti {b₁ b₂ : Int} (h : b₁ ≤ b₂) (arrivals : List (Nat × GuildCreate)) :
    membersAbove b₂ arrivals ≤ membersAbove b₁ arrivals := by
  unfold membersAbove
  apply List.countP_mono_left
  intro a _ ha
  simp only [decide_eq_true_eq] at ha ⊢
  omega

/-- C9. Unit arrivals delivered one after another to an aggregate whose threshold
counters are 0 (fewer than 2^31 of them, member counts within `int32`): `GT1k`,
`GT10k` and `GT100k` are the numbers of arrivals with strictly more than 1000,
10000 and 100000 members, each threshold counted on its own, and so
`GT100k ≤ GT10k ≤ GT1k ≤` the number of arrivals. -/
theorem thresholds_count_strictly (f : Fleet) (arrivals : List (Nat × GuildCreate))
    (h0 : f.out.GT1k = 0 ∧ f.out.GT10k = 0 ∧ f.out.GT100k = 0)
    (hlen : arrivals.length < 2147483648)
    (hmc : ∀ a ∈ arrivals, IsInt32 a.2.MemberCount) :
    (f.arrive arrivals).out.GT1k = membersAbove 1000 arrivals ∧
      (f.arrive arrivals).out.GT10k = membersAbove 10000 arrivals ∧
      (f.arrive arrivals).out.GT100k = membersAbove 100000 arrivals ∧
      (f.arrive arrivals).out.GT100k ≤ (f.arrive arrivals).out.GT10k ∧
      (f.arrive arrivals).out.GT10k ≤ (f.arrive arrivals).out.GT1k ∧
      (f.arrive arrivals).out.GT1k ≤ arrivals.length := by
  obtain ⟨h1, h2, h3⟩ := h0
  have hz : IsInt32 0 := by decide
  have l1 := membersAbove_le_length 1000 arrivals
  have l2 := membersAbove_le_length 10000 arrivals
  have l3 := membersAbove_le_length 100000 arrivals
  have e1 : (f.arrive arrivals).out.GT1k = membersAbove 1000 arrivals := by
    unfold Fleet.arrive
    rw [run_counter (fun o => o.GT1k) (gtWeight 1000) gt1k_step _ f
      (show IsInt32 f.out.GT1k from h1 ▸ hz), gtWeight_sum 1000 arrivals hmc]
    simp only [h1, zero_add]
    exact int32_of_isInt32 ⟨by omega, by omega⟩
  have e2 : (f.arrive arrivals).out.GT10k = membersAbove 10000 arrivals := by
    unfold Fleet.arrive
    rw [run_counter (fun o => o.GT10k) (gtWeight 10000) gt10k_step _ f
      (show IsInt32 f.out.GT10k from h2 ▸ hz), gtWeight_sum 10000 arrivals hmc]
    simp only [h2, zero_add]
    exact int32_of_isInt32 ⟨by omega, by omega⟩
  have e3 : (f.arrive arrivals).out.GT100k = membersAbove 100000 arrivals := by
    unfold Fleet.arrive
    rw [run_counter (fun o => o.GT100k) (gtWeight 100000) gt100k_step _ f
      (show IsInt32 f.out.GT100k from h3 ▸ hz), gtWeight_sum 100000 arrivals hmc]
    simp only [h3, zero_add]
    exact int32_of_isInt32 ⟨by omega, by omega⟩
  have m1 := membersAbove_anti (show (1000 : Int) ≤ 10000 by decide) arrivals
  have m2 := membersAbove_anti (show (10000 : Int) ≤ 100000 by decide) arrivals
  refine ⟨e1, e2, e3, ?_, ?_, ?_⟩
  · rw [e3, e2]; exact_mod_cast m2
  · rw [e2, e1]; exact_mod_cast m1
  · rw [e1]; exact_mod_cast l1

/-! ## The launch loop -/

theorem policyStep_pos {n m i : Nat} (h : m ∣ (i + 1) ∧ i + 1 ≠ n) (rest : List LaunchAction) :
    policyStep n m i rest = LaunchAction.start i :: LaunchAction.sleep5s :: rest := by
  unfold policyStep
  rw [if_pos h]

theorem policyStep_neg {n m i : Nat} (h : ¬ (m ∣ (i + 1) ∧ i + 1 ≠ n))
    (rest : List LaunchAction) :
    policyStep n m i rest = LaunchAction.start i :: rest := by
  unfold policyStep
  rw [if_neg h]

theorem succ_mod_of_not_dvd {m i : Nat} (hd : ¬ m ∣ i + 1) : (i + 1) % m = i % m + 1 := by
  rcases Nat.lt_or_ge m 2 with h | hm2
  · have : m = 0 ∨ m = 1 := by omega
    rcases this with rfl | rfl
    · simp
    · exact absurd (one_dvd _) hd
  · have h1 : 1 % m = 1 := Nat.mod_eq_of_lt (by omega)
    have hlt := Nat.mod_lt i (show 0 < m by omega)
    have hadd : (i + 1) % m = (i % m + 1) % m := by rw [Nat.add_mod, h1]
    by_cases hr : i % m + 1 < m
    · rw [hadd, Nat.mod_eq_of_lt hr]
    · exfalso
      apply hd
      have : i % m + 1 = m := by omega
      rw [Nat.dvd_iff_mod_eq_zero, hadd, this, Nat.mod_self]

theorem launchPolicy_eq (n m : Nat) :
    launchPolicy n m = (List.range' 0 n).foldr (policyStep n m) [] := by
  unfold launchPolicy
  rw [List.range_eq_range']

theorem tmod_cond (n m i : Nat) :
    (Int.tmod ((i + 1 : Nat) : Int) (m : Int) = 0 ∧ ((i + 1 : Nat) : Int) ≠ (n : Int)) ↔
      (m ∣ (i + 1) ∧ i + 1 ≠ n) := by
  rw [← Int.ofNat_tmod]
  constructor
  · rintro ⟨h1, h2⟩
    refine ⟨Nat.dvd_of_mod_eq_zero (by exact_mod_cast h1), by exact_mod_cast h2⟩
  · rintro ⟨h1, h2⟩
    refine ⟨by exact_mod_cast Nat.mod_eq_zero_of_dvd h1, by exact_mod_cast h2⟩

theorem go_eq (n m : Nat) (hm : 1 ≤ m) (k : Nat) :
    ∀ i, i + k = n →
      launchLoop.go (n : Int) (m : Int) (k + 1) i i =
        some ((List.range' i k).foldr (policyStep n m) []) := by
  induction k with
  | zero =>
    intro i hi
    have : ¬ ((i : Int) < (n : Int)) := by omega
    simp [launchLoop.go, this]
  | succ k ih =>
    intro i hi
    have hlt : (i : Int) < (n : Int) := by omega
    have hm0 : (m : Int) ≠ 0 := by omega
    rw [launchLoop.go]
    simp only [hlt, if_true, hm0, if_false]
    rw [ih (i + 1) (by omega)]
    simp only [List.range'_succ, List.foldr_cons, Option.map_some']
    unfold policyStep
    by_cases hc : m ∣ (i + 1) ∧ i + 1 ≠ n
    · rw [if_pos ((tmod_cond n m i).2 hc), if_pos hc]
    · rw [if_neg (fun h => hc ((tmod_cond n m i).1 h)), if_neg hc]

theorem launchLoop_eq (n m : Nat) (hm : 1 ≤ m) :
    launchLoop (n : Int) (m : Int) = some (launchPolicy n m) := by
  unfold launchLoop
  rw [launchPolicy_eq, Int.toNat_ofNat]
  exact go_eq n m hm n 0 (by omega)

theorem startsOf_policy (n m : Nat) (l : List Nat) :
    startsOf (l.foldr (policyStep n m) []) = l := by
  induction l with
  | nil => rfl
  | cons i l ih =>
    simp only [List.foldr_cons, policyStep]
    split_ifs <;> simp [startsOf, ih]

theorem sleepsOf_policy (n m : Nat) (k : Nat) :
    ∀ i, i + (k + 1) = n →
      sleepsOf ((List.range' i (k + 1)).foldr (policyStep n m) []) = (n - 1) / m - i / m := by
  induction k with
  | zero =>
    intro i hi
    have h1 : ¬ (m ∣ (i + 1) ∧ i + 1 ≠ n) := fun h => h.2 hi
    have h2 : n - 1 = i := by omega
    simp [List.range', policyStep_neg h1, sleepsOf, h2]
  | succ k ih =>
    intro i hi
    rw [List.range'_succ, List.foldr_cons]
    have ih := ih (i + 1) (by omega)
    have hne : i + 1 ≠ n := by omega
    have hdiv : (i + 1) / m = i / m + if m ∣ i + 1 then 1 else 0 := Nat.succ_div i m
    have hmono : (i + 1) / m ≤ (n - 1) / m := Nat.div_le_div_right (by omega)
    by_cases hd : m ∣ i + 1
    · rw [policyStep_pos ⟨hd, hne⟩]
      simp only [sleepsOf, ih]
      rw [if_pos hd] at hdiv
      omega
    · rw [policyStep_neg (fun h => hd h.1)]
      simp only [sleepsOf, ih]
      rw [if_neg hd] at hdiv
      omega

theorem batchSizes_policy (n m : Nat) (hm : 1 ≤ m) (k : Nat) :
    ∀ i, i + k = n →
      ∃ b bs, batchSizes ((List.range' i k).foldr (policyStep n m) []) = b :: bs ∧
        b + i % m ≤ m ∧ ∀ x ∈ bs, x ≤ m := by
  induction k with
  | zero =>
    intro i _
    refine ⟨0, [], rfl, ?_, by simp⟩
    have := Nat.mod_lt i (show 0 < m by omega)
    omega
  | succ k ih =>
    intro i hi
    obtain ⟨b, bs, hb, hle, hbs⟩ := ih (i + 1) (by omega)
    have hlt := Nat.mod_lt i (show 0 < m by omega)
    rw [List.range'_succ, List.foldr_cons]
    by_cases hc : m ∣ (i + 1) ∧ i + 1 ≠ n
    · rw [policyStep_pos hc]
      refine ⟨1, b :: bs, ?_, by omega, ?_⟩
      · simp [batchSizes, hb]
      · intro x hx
        rcases List.mem_cons.1 hx with rfl | hx
        · omega
        · exact hbs x hx
    · rw [policyStep_neg hc]
      refine ⟨b + 1, bs, ?_, ?_, hbs⟩
      · simp [batchSizes, hb]
      · by_cases hd : m ∣ i + 1
        · have hn : i + 1 = n := by
            by_contra h
            exact hc ⟨hd, h⟩
          have hk : k = 0 := by omega
          subst hk
          simp [batchSizes] at hb
          omega
        · have hmod := succ_mod_of_not_dvd hd
          omega

/-- C5. For every fleet size `n` and `maxConcurrency = m ≥ 1` the launch loop
terminates and performs exactly the actions of the launch policy: it starts the
shards `0, ..., n-1` in index order, each once, with a cool-down right after
the `k`-th start exactly when `m ∣ k` and `k ≠ n`.  Hence every batch has at
most `m` starts, there are `⌈n/m⌉ - 1` cool-downs when `n ≥ 1`, and 12 shards
with `m = 5` start in the batches 5, 5, 2 with two cool-downs between them. -/
theorem launch_loop_follows_policy (n m : Nat) (hm : 1 ≤ m) :
    launchLoop (n : Int) (m : Int) = some (launchPolicy n m) ∧
      startsOf (launchPolicy n m) = List.range n ∧
      (∀ b ∈ batchSizes (launchPolicy n m), b ≤ m) ∧
      (1 ≤ n → sleepsOf (launchPolicy n m) = (n + m - 1) / m - 1) ∧
      launchLoop 12 5 = some
        [.start 0, .start 1, .start 2, .start 3, .start 4, .sleep5s,
         .start 5, .start 6, .start 7, .start 8, .start 9, .sleep5s,
         .start 10, .start 11] ∧
      (launchLoop 12 5).map batchSizes = some [5, 5, 2] := by
  refine ⟨launchLoop_eq n m hm, ?_, ?_, ?_, by decide, by decide⟩
  · rw [launchPolicy_eq, startsOf_policy, List.range_eq_range']
  · obtain ⟨b, bs, hb, hle, hbs⟩ := batchSizes_policy n m hm n 0 (by omega)
    rw [launchPolicy_eq, hb]
    intro x hx
    rcases List.mem_cons.1 hx with rfl | hx
    · omega
    · exact hbs x hx
  · intro hn
    obtain ⟨k, rfl⟩ : ∃ k, n = k + 1 := ⟨n - 1, by omega⟩
    rw [launchPolicy_eq, sleepsOf_policy (k + 1) m k 0 (by omega)]
    have : k + 1 + m - 1 = k + m := by omega
    rw [this, Nat.add_div_right k (by omega)]
    simp

/-- C5 at 7 shards and `maxConcurrency = 3`: cool-downs after the 3rd and the 6th start. -/
theorem launch_loop_follows_policy_witness :
    launchLoop 7 3 = some (launchPolicy 7 3) ∧ sleepsOf (launchPolicy 7 3) = 2 :=
  ⟨(launch_loop_follows_policy 7 3 (by decide)).1,
   ((launch_loop_follows_policy 7 3 (by decide)).2.2.2.1 (by decide)).trans (by decide)⟩

/-! ## Shard completion and the aggregate -/

/-- C9 at three arrivals of 1000, 1001 and 200000 members. -/
theorem thresholds_count_strictly_witness :
    ((Fleet.start 2 1).arrive
        [(0, ⟨1000, []⟩), (0, ⟨1001, []⟩), (1, ⟨200000, []⟩)]).out.GT1k = 2 ∧
      ((Fleet.start 2 1).arrive
        [(0, ⟨1000, []⟩), (0, ⟨1001, []⟩), (1, ⟨200000, []⟩)]).out.GT10k = 1 :=
  have h := thresholds_count_strictly (Fleet.start 2 1)
    [(0, ⟨1000, []⟩), (0, ⟨1001, []⟩), (1, ⟨200000, []⟩)]
    (by decide) (by decide) (by decide)
  ⟨h.1.trans (by decide), h.2.1.trans (by decide)⟩

/-- C10. When the deadline of a shard fires with `shardGuildCount = n` and
`guildsReceived = a` (the subtraction and the addition within `int32`),
`UnavailableGuilds` grows by exactly `max 0 (n - a)`, every other field of the
aggregate is unchanged, and `UnavailableGuilds` does not decrease. -/
theorem deadline_adds_clamped_shortfall (out : DStatOutput) (s : Session)
    (hsub : IsInt32 (s.shardGuildCount - s.guildsReceived))
    (hadd : IsInt32 (out.UnavailableGuilds + max 0 (s.shardGuildCount - s.guildsReceived))) :
    (onDeadline out s).1 =
        { out with
          UnavailableGuilds :=
            out.UnavailableGuilds + max 0 (s.shardGuildCount - s.guildsReceived) } ∧
      out.UnavailableGuilds ≤ (onDeadline out s).1.UnavailableGuilds := by
  unfold onDeadline deadlineCheck
  rw [int32_of_isInt32 hsub]
  split_ifs with h
  · have hm : max 0 (s.shardGuildCount - s.guildsReceived) = s.shardGuildCount - s.guildsReceived :=
      max_eq_right (le_of_lt h)
    rw [hm] at hadd
    rw [hm, int32_of_isInt32 hadd]
    exact ⟨rfl, by dsimp only; omega⟩
  · have hm : max 0 (s.shardGuildCount - s.guildsReceived) = 0 :=
      max_eq_left (not_lt.mp h)
    rw [hm]
    simp

/-- C10 at a shortfall of 2 (`n = 3`, `a = 1`) and at `a > n` (`n = 2`, `a = 5`). -/
theorem deadline_adds_clamped_shortfall_witness :
    (onDeadline DStatOutput.zero ⟨3, 1, 0, 0⟩).1 =
        { DStatOutput.zero with UnavailableGuilds := 0 + max 0 (3 - 1) } ∧
      (onDeadline DStatOutput.zero ⟨2, 5, 1, 1⟩).1 =
        { DStatOutput.zero with UnavailableGuilds := 0 + max 0 (2 - 5) } :=
  ⟨(deadline_adds_clamped_shortfall DStatOutput.zero ⟨3, 1, 0, 0⟩ (by decide) (by decide)).1,
   (deadline_adds_clamped_shortfall DStatOutput.zero ⟨2, 5, 1, 1⟩ (by decide) (by decide)).1⟩

/-- C4, as stated, fails: a shard with a one-unit manifest is completed by its
first arrival; a second arrival of 7 members delivered afterwards changes the
aggregate (`MemberCount` and `LargestGuildSize`). -/
theorem late_arrival_changes_aggregate :
    (runShard DStatOutput.zero Session.fresh
        [.ready ⟨["a"]⟩, .guildCreate ⟨5, []⟩]).2.completed = true ∧
      (runShard DStatOutput.zero Session.fresh
        [.ready ⟨["a"]⟩, .guildCreate ⟨5, []⟩, .guildCreate ⟨7, []⟩]).1 ≠
      (runShard DStatOutput.zero Session.fresh
        [.ready ⟨["a"]⟩, .guildCreate ⟨5, []⟩]).1 := by
  decide

/-- C4, amended. An arrival handled by a session in any state, completed ones
included, leaves `Guilds`, `UnavailableGuilds`, `ReadyShards`,
`RecommendedShards` and `MaxConcurrency` unchanged, and updates the per-unit
statistics exactly as the same arrival does on a session that has not
completed. -/
theorem late_arrival_frame (out : DStatOutput) (s : Session) (gc : GuildCreate) :
    (onGuildCreate out s gc).1.Guilds = out.Guilds ∧
      (onGuildCreate out s gc).1.UnavailableGuilds = out.UnavailableGuilds ∧
      (onGuildCreate out s gc).1.ReadyShards = out.ReadyShards ∧
      (onGuildCreate out s gc).1.RecommendedShards = out.RecommendedShards ∧
      (onGuildCreate out s gc).1.MaxConcurrency = out.MaxConcurrency ∧
      (onGuildCreate out s gc).1 = (onGuildCreate out Session.fresh gc).1 := by
  simp [onGuildCreate_out, guildStats]

/-- C2, evaluated. Manifest of 2 units, one arrival, deadline (the timeout path
completes the shard: one `Close`, one send on `done`), then the second arrival:
the all-arrived path runs the completion side effect a second time.  The same
happens when the last arrival coincides with the deadline: the timer loads
`guildsReceived = 1`, the second arrival is handled and completes the shard, and
the timer's check, with the loaded 1, completes it again. -/
theorem late_arrival_completes_twice :
    (runShard DStatOutput.zero Session.fresh
        [.ready ⟨["a", "b"]⟩, .guildCreate ⟨5, []⟩, .deadline]).2 = ⟨2, 1, 1, 1⟩ ∧
      (runShard DStatOutput.zero Session.fresh
        [.ready ⟨["a", "b"]⟩, .guildCreate ⟨5, []⟩, .deadline, .guildCreate ⟨7, []⟩]).2 =
        ⟨2, 2, 2, 2⟩ ∧
      (runShard DStatOutput.zero Session.fresh
        [.ready ⟨["a", "b"]⟩, .guildCreate ⟨5, []⟩]).2.guildsReceived = 1 ∧
      (runShard DStatOutput.zero Session.fresh
        [.ready ⟨["a", "b"]⟩, .guildCreate ⟨5, []⟩, .guildCreate ⟨7, []⟩]).2 = ⟨2, 2, 1, 1⟩ ∧
      (deadlineCheck
        (runShard DStatOutput.zero Session.fresh
          [.ready ⟨["a", "b"]⟩, .guildCreate ⟨5, []⟩, .guildCreate ⟨7, []⟩]).1
        (runShard DStatOutput.zero Session.fresh
          [.ready ⟨["a", "b"]⟩, .guildCreate ⟨5, []⟩, .guildCreate ⟨7, []⟩]).2 1).2 =
        ⟨2, 2, 2, 2⟩ := by
  decide

/-- C8, evaluated. With `Guilds = 0` the text snapshot prints the average 0,
but `MarshalJSON` panics on the division `ds.MemberCount / ds.Guilds`. -/
theorem marshalJSON_panics_without_guilds :
    DStatOutput.zero.MarshalJSON = none ∧
      (DStatOutput.zero.FormatToWriter DStatOutput.zero).map (fun ls => ls.getLast?) =
        some (some ("Avg Guild Size     =>", 0)) := by
  decide

/-- C6, evaluated. Two handlers with 5 and 3 members; both load
`LargestGuildSize = 0`, then the first stores 5 and the second stores 3: the
final value is 3, not the maximum 5, and the last step lowers it from 5 to 3. -/
theorem largest_size_lost_update :
    runSizeUpdates 0 (sizeUpdates [5, 3]) [0, 1, 0, 1] =
        (3, [⟨5, .finished⟩, ⟨3, .finished⟩]) ∧
      sizeHistory 0 (sizeUpdates [5, 3]) [0, 1, 0, 1] = [0, 0, 5, 3] := by
  decide

/-- C1, as stated, fails: one shard, a manifest of 2 units, one arrival, then
the deadline.  The shard has completed, and `Guilds + UnavailableGuilds` is
`2 + 1`, not the sum 2 of the expected unit counts. -/
theorem timeout_counts_missing_units_twice :
    ((Fleet.run (Fleet.start 1 1)
        [(0, .ready ⟨["a", "b"]⟩), (0, .guildCreate ⟨5, []⟩), (0, .deadline)]).sessions 0).completed
        = true ∧
      (Fleet.run (Fleet.start 1 1)
        [(0, .ready ⟨["a", "b"]⟩), (0, .guildCreate ⟨5, []⟩), (0, .deadline)]).out.Guilds +
      (Fleet.run (Fleet.start 1 1)
        [(0, .ready ⟨["a", "b"]⟩), (0, .guildCreate ⟨5, []⟩), (0, .deadline)]).out.UnavailableGuilds
        ≠ (["a", "b"].length : Int) := by
  decide

theorem guildsWeight_sum (tr : List (Nat × Event)) :
    (tr.map (fun p => guildsWeight p.2)).sum = (((manifestsOf tr).map Prod.snd).sum : Nat) := by
  induction tr with
  | nil => simp [manifestsOf]
  | cons p tr ih =>
    obtain ⟨i, e⟩ := p
    cases e <;>
      simp_all [manifestsOf, guildsWeight, Event.manifest, List.filterMap_cons]

/-- C1, amended. For every trace whose manifests are one per shard, shard `i`
declaring `ns[i]` units (their sum within `int32`), `Guilds` alone is the sum of
the expected unit counts; `Guilds + UnavailableGuilds` equals that sum exactly
when `UnavailableGuilds = 0`. -/
theorem guilds_is_declared_total (shards maxConcurrency : Int) (ns : List Nat)
    (tr : List (Nat × Event))
    (hman : (manifestsOf tr).Perm ns.enum)
    (hsum : ns.sum < 2147483648) :
    ((Fleet.start shards maxConcurrency).run tr).out.Guilds = ns.sum ∧
      (((Fleet.start shards maxConcurrency).run tr).out.Guilds +
          ((Fleet.start shards maxConcurrency).run tr).out.UnavailableGuilds = ns.sum ↔
        ((Fleet.start shards maxConcurrency).run tr).out.UnavailableGuilds = 0) := by
  have hs : ((manifestsOf tr).map Prod.snd).sum = ns.sum := by
    rw [(hman.map Prod.snd).sum_eq, List.enum_map_snd]
  have hg : ((Fleet.start shards maxConcurrency).run tr).out.Guilds = ns.sum := by
    rw [run_counter (fun o => o.Guilds) guildsWeight guilds_step tr _
      (show IsInt32 (0 : Int) by decide),
      guildsWeight_sum, hs]
    show int32 (0 + (ns.sum : Int)) = ns.sum
    rw [zero_add]
    exact int32_of_isInt32 ⟨by omega, by omega⟩
  refine ⟨hg, ?_⟩
  rw [hg]
  constructor <;> intro h <;> omega

/-- C1 amended, at two shards declaring 2 and 1 units. -/
theorem guilds_is_declared_total_witness :
    ((Fleet.start 2 1).run
        [(1, .ready ⟨["c"]⟩), (0, .ready ⟨["a", "b"]⟩), (0, .guildCreate ⟨5, []⟩),
          (1, .guildCreate ⟨9, []⟩), (0, .deadline), (1, .deadline)]).out.Guilds = 3 :=
  (guilds_is_declared_total 2 1 [2, 1]
    [(1, .ready ⟨["c"]⟩), (0, .ready ⟨["a", "b"]⟩), (0, .guildCreate ⟨5, []⟩),
      (1, .guildCreate ⟨9, []⟩), (0, .deadline), (1, .deadline)]
    (by decide) (by decide)).1

/-! ## Sessions and the largest size along a trace -/

theorem membersOf_cons_guildCreate (j : Nat) (gc : GuildCreate) (tr : List (Nat × Event)) :
    membersOf ((j, Event.guildCreate gc) :: tr) = gc.MemberCount :: membersOf tr := rfl

theorem onDeadline_noop (out : DStatOutput) (s : Session)
    (h : int32 (s.shardGuildCount - s.guildsReceived) ≤ 0) : onDeadline out s = (out, s) := by
  unfold onDeadline deadlineCheck
  rw [if_neg (not_lt.mpr h)]

theorem largest_ready (out : DStatOutput) (s : Session) (r : Ready) :
    (handle out s (Event.ready r)).1.LargestGuildSize = out.LargestGuildSize := rfl

theorem largest_deadline (out : DStatOutput) (s : Session) :
    (handle out s Event.deadline).1.LargestGuildSize = out.LargestGuildSize := by
  simp only [handle, onDeadline, deadlineCheck]
  split_ifs <;> rfl

theorem largest_guildCreate (out : DStatOutput) (s : Session) (gc : GuildCreate) :
    (handle out s (Event.guildCreate gc)).1.LargestGuildSize =
      max out.LargestGuildSize (int32 gc.MemberCount) := by
  simp only [handle, onGuildCreate_out, guildStats]
  split_ifs with h
  · exact (max_eq_right (le_of_lt h)).symm
  · exact (max_eq_left (not_lt.mp h)).symm

theorem run_largest_ge (tr : List (Nat × Event)) (f : Fleet) :
    f.out.LargestGuildSize ≤ (f.run tr).out.LargestGuildSize ∧
      ∀ m ∈ membersOf tr, int32 m ≤ (f.run tr).out.LargestGuildSize := by
  induction tr generalizing f with
  | nil => exact ⟨le_refl _, by simp [membersOf, arrivalsOf]⟩
  | cons p tr ih =>
    obtain ⟨j, e⟩ := p
    obtain ⟨h1, h2⟩ := ih (f.step j e)
    rw [run_cons]
    rw [step_out] at h1
    cases e with
    | ready r =>
      rw [largest_ready] at h1
      exact ⟨h1, h2⟩
    | deadline =>
      rw [largest_deadline] at h1
      exact ⟨h1, h2⟩
    | guildCreate gc =>
      rw [largest_guildCreate] at h1
      rw [membersOf_cons_guildCreate]
      refine ⟨le_trans (le_max_left _ _) h1, ?_⟩
      intro m hmem
      rcases List.mem_cons.1 hmem with rfl | hmem
      · exact le_trans (le_max_right _ _) h1
      · exact h2 m hmem

theorem run_largest_mem (tr : List (Nat × Event)) (f : Fleet) :
    (f.run tr).out.LargestGuildSize = f.out.LargestGuildSize ∨
      ∃ m ∈ membersOf tr, (f.run tr).out.LargestGuildSize = int32 m := by
  induction tr generalizing f with
  | nil => left; rfl
  | cons p tr ih =>
    obtain ⟨j, e⟩ := p
    rw [run_cons]
    have h := ih (f.step j e)
    rw [step_out] at h
    cases e with
    | ready r =>
      rw [largest_ready] at h
      exact h
    | deadline =>
      rw [largest_deadline] at h
      exact h
    | guildCreate gc =>
      rw [largest_guildCreate] at h
      rw [membersOf_cons_guildCreate]
      rcases h with h | ⟨m, hmem, h⟩
      · rcases max_cases f.out.LargestGuildSize (int32 gc.MemberCount) with ⟨hc, _⟩ | ⟨hc, _⟩
        · left; rw [h, hc]
        · right; exact ⟨gc.MemberCount, List.mem_cons_self _ _, by rw [h, hc]⟩
      · right; exact ⟨m, List.mem_cons_of_mem _ hmem, h⟩

/-! ## The end-to-end example -/

/-- The end-to-end example with the `GuildCreate` handlers run one after another,
none overlapping another between its load and its store of `LargestGuildSize`:
in every order of the six arrivals the last value is 200000.  For handlers that
do overlap this does not hold, see `runSizeUpdates`. -/
theorem example_largest_when_sequential (shards maxConcurrency : Int)
    (pre : List (Nat × Event))
    (hmem : (membersOf pre).Perm [50, 20000, 5, 200000, 1, 900]) :
    ((Fleet.start shards maxConcurrency).run pre).out.LargestGuildSize = 200000 := by
  obtain ⟨_, hge⟩ := run_largest_ge pre (Fleet.start shards maxConcurrency)
  have h200 : int32 200000 ≤ ((Fleet.start shards maxConcurrency).run pre).out.LargestGuildSize :=
    hge 200000 (hmem.mem_iff.2 (by decide))
  have h200v : int32 200000 = 200000 := by decide
  rw [h200v] at h200
  rcases run_largest_mem pre (Fleet.start shards maxConcurrency) with h | ⟨m, hm, h⟩
  · have h0 : (Fleet.start shards maxConcurrency).out.LargestGuildSize = 0 := rfl
    rw [h, h0] at h200
    omega
  · rw [hmem.mem_iff] at hm
    have hmle : int32 m ≤ 200000 := by
      simp only [List.mem_cons, List.mem_singleton, List.not_mem_nil, or_false] at hm
      rcases hm with rfl | rfl | rfl | rfl | rfl | rfl <;> decide
    rw [h] at h200 ⊢
    omega

theorem runShard_cons (out : DStatOutput) (s : Session) (e : Event) (es : List Event) :
    runShard out s (e :: es) = runShard (handle out s e).1 (handle out s e).2 es := rfl

/-- A session whose manifest declared zero units is never completed by
deadlines and arrivals (fewer than 2^31 of them). -/
theorem zero_manifest_stays_open (es : List Event) :
    ∀ (out : DStatOutput) (s : Session) (k : Nat),
      s.shardGuildCount = 0 → s.doneSends = 0 → s.guildsReceived = k →
      k + es.length < 2147483648 → (∀ e ∈ es, e.manifest = none) →
      (runShard out s es).2.doneSends = 0 := by
  induction es with
  | nil => intro out s k _ hd _ _ _; exact hd
  | cons e es ih =>
    intro out s k hs hd hg hk hes
    rw [runShard_cons]
    have hes2 : ∀ e ∈ es, e.manifest = none := fun x hx => hes x (List.mem_cons_of_mem _ hx)
    have hlen : k + (es.length + 1) < 2147483648 := by simpa using hk
    cases e with
    | ready r => exact absurd (hes _ (List.mem_cons_self _ _)) (by simp [Event.manifest])
    | deadline =>
      have hno : handle out s Event.deadline = (out, s) := by
        show onDeadline out s = (out, s)
        apply onDeadline_noop
        rw [hs, hg]
        unfold int32
        omega
      rw [hno]
      exact ih out s k hs hd hg (by omega) hes2
    | guildCreate gc =>
      have hne : int32 (s.guildsReceived + 1) ≠ s.shardGuildCount := by
        rw [hs, hg]
        unfold int32
        omega
      have hh : (handle out s (Event.guildCreate gc)).2 =
          { s with guildsReceived := int32 (s.guildsReceived + 1) } := by
        show (onGuildCreate out s gc).2 = _
        unfold onGuildCreate
        dsimp only
        rw [if_neg hne]
      rw [hh]
      refine ih _ _ (k + 1) hs hd ?_ (by omega) hes2
      show int32 (s.guildsReceived + 1) = ((k + 1 : Nat) : Int)
      rw [hg]
      unfold int32
      omega

/-- C3, evaluated. After a manifest of zero units the shard is not completed,
and it stays not completed through every later sequence of deadline expiries
and arrivals (fewer than 2^31 events): neither completion path ever runs. -/
theorem zero_manifest_never_completes (out : DStatOutput) (es : List Event)
    (hlen : es.length < 2147483648) (hes : ∀ e ∈ es, e.manifest = none) :
    (runShard out Session.fresh [Event.ready ⟨[]⟩]).2.completed = false ∧
      (runShard out Session.fresh (Event.ready ⟨[]⟩ :: es)).2.completed = false := by
  have h := zero_manifest_stays_open es (handle out Session.fresh (Event.ready ⟨[]⟩)).1
    (handle out Session.fresh (Event.ready ⟨[]⟩)).2 0 rfl rfl rfl
    (by simpa using hlen) hes
  refine ⟨rfl, ?_⟩
  rw [runShard_cons]
  unfold Session.completed
  rw [h]
  rfl

/-- C3 at a zero-unit manifest followed by a deadline, an arrival and a deadline. -/
theorem zero_manifest_never_completes_witness :
    (runShard DStatOutput.zero Session.fresh [.ready ⟨[]⟩]).2.completed = false ∧
      (runShard DStatOutput.zero Session.fresh
        [.ready ⟨[]⟩, .deadline, .guildCreate ⟨5, []⟩, .deadline]).2.completed = false :=
  zero_manifest_never_completes DStatOutput.zero [.deadline, .guildCreate ⟨5, []⟩, .deadline]
    (by decide) (by decide)

end DStat
